import Mathlib

/-!
Shallow embedding of the Catrix exam-preparation client (src/index.tsx).

The embedding covers the two core components named by the specification:

* the session engine, component `TestRunner`: its state (`RunnerState`), the
  submission path `handleSubmit`, the answer write `handleSelect`, and the
  one-second countdown effect `tick`;
* the catalog partitioner inside component `App`: `processQuestions`
  (previous-year-paper grouping and sorting, mock assembly with the
  random-comparator shuffle) and `handlePracticeQuestion`.

Modelling conventions: JavaScript numbers that hold option indices or the
sentinel value -1 are `Int`; `Array.prototype.sort` with a consistent
comparator is modelled as a stable insertion sort by the comparator order;
`Array.prototype.sort` with the inconsistent comparator
`() => Math.random() - 0.5` is modelled as an insertion sort in which every
comparison consumes one fair coin from an explicit coin list; the awaited
1500 ms delay inside `handleSubmit` is a pure UX pause and is modelled as
atomic (the idempotency guard `isSubmitting` is set before it, exactly as in
the source); calls of the `onFinish` callback are recorded in the `emissions`
field and `console.error` messages in the `errors` field.
-/

namespace Catrix

/-- The `category` field of a question: "Quant", "VARC" or "DILR". -/
inductive Category where
  | Quant
  | VARC
  | DILR
deriving DecidableEq

/-- The `type` tag of a test: "MOCK", "PYQ" or "PRACTICE". -/
inductive TestType where
  | MOCK
  | PYQ
  | PRACTICE
deriving DecidableEq

/-- The `Question` record of src/index.tsx. -/
structure Question where
  id : String
  text : String := ""
  passage : Option String := none
  options : List String := []
  correctAnswer : Int := 0
  explanation : Option String := none
  category : Category
  isPremium : Bool := false
  year : Option String := none
  slot : Option String := none
deriving DecidableEq

/-- The `Test` record of src/index.tsx (the optional `completed`/`score`
fields are never written by the code and are omitted). -/
structure Test where
  id : String
  title : String
  durationMinutes : Nat
  questions : List Question
  type : TestType
deriving DecidableEq

/-- The mutable state of one `TestRunner` mount (one Attempt), plus the two
observation logs: `emissions` records every `onFinish(score, total)` call and
`errors` records every `console.error` message. -/
structure RunnerState where
  currentQ : Nat
  answers : List Int
  timeLeft : Int
  isSubmitting : Bool
  showConfirmModal : Bool
  emissions : List (Nat × Nat)
  errors : List String
deriving DecidableEq

/-- `useState` initial values of `TestRunner`: cursor 0, one `-1` answer slot
per question, `timeLeft = test.durationMinutes * 60`, not submitting. -/
def initState (test : Test) : RunnerState :=
  { currentQ := 0
    answers := List.replicate test.questions.length (-1)
    timeLeft := (test.durationMinutes : Int) * 60
    isSubmitting := false
    showConfirmModal := false
    emissions := []
    errors := [] }

/-- The score loop of `handleSubmit`:
`test.questions.forEach((q, idx) => { if (finalAnswers[idx] === q.correctAnswer) score++ })`.
When the answer list is exhausted the JavaScript read yields `undefined`,
which is `===`-equal to no number, so the remaining questions add nothing. -/
def computeScore : List Question → List Int → Nat
  | [], _ => 0
  | _ :: _, [] => 0
  | q :: qs, a :: as => (if a = q.correctAnswer then 1 else 0) + computeScore qs as

/-- `TestRunner.handleSubmit`. `hasOnFinish` states whether the `onFinish`
prop is a function. The guard returns unchanged when already submitting;
otherwise `isSubmitting` is set, the confirm modal closed, the score computed
from the current answers, and after the UX delay either `onFinish` is called
(recorded in `emissions`) or, when the callback is missing, the error
`onFinish prop missing` is logged and `isSubmitting` is reset to `false`. -/
def handleSubmit (test : Test) (hasOnFinish : Bool) (st : RunnerState) : RunnerState :=
  if st.isSubmitting then st
  else
    let st1 := { st with isSubmitting := true, showConfirmModal := false }
    let score := computeScore test.questions st1.answers
    if hasOnFinish then
      { st1 with emissions := st1.emissions ++ [(score, test.questions.length)] }
    else
      { st1 with isSubmitting := false, errors := st1.errors ++ ["onFinish prop missing"] }

/-- `TestRunner.handleSelect`: `newAnswers[currentQ] = idx; setAnswers(newAnswers)`.
There is no bounds check and no status guard in the source. -/
def handleSelect (st : RunnerState) (idx : Int) : RunnerState :=
  { st with answers := st.answers.set st.currentQ idx }

/-- One second of the timer `useEffect`: the effect runs whenever `timeLeft`
changes; at `timeLeft === 0` it calls `handleSubmit` and installs no interval
(so the counter is never decremented below zero); otherwise the pending
interval fires once, decrementing `timeLeft` by one, after which the effect
re-runs on the new value and auto-submits when it has just reached zero. -/
def tick (test : Test) (hasOnFinish : Bool) (st : RunnerState) : RunnerState :=
  if st.timeLeft = 0 then st
  else
    let st1 := { st with timeLeft := st.timeLeft - 1 }
    if st1.timeLeft = 0 then handleSubmit test hasOnFinish st1 else st1

/-- `App.handlePracticeQuestion`: wraps one question into a 5-minute
1-question PRACTICE test. -/
def handlePracticeQuestion (q : Question) : Test :=
  { id := "practice-" ++ q.id
    title := "Practice Question"
    durationMinutes := 5
    questions := [q]
    type := TestType.PRACTICE }

/-- The Solve Now button of `App.renderPractice`:
`onClick={() => !q.isPremium && handlePracticeQuestion(q)}` (the button is
also disabled when `q.isPremium`). Returns the test started, if any. -/
def solveNowAction (q : Question) : Option Test :=
  if q.isPremium then none else some (handlePracticeQuestion q)

/-! ### The catalog partitioner (`App.processQuestions`) -/

/-- One step of the random-comparator sort: insert `x` into the already
processed list, each comparison consuming one coin (`true` stands for a
negative value of `Math.random() - 0.5`, placing `x` in front). Running out
of coins never happens when enough coins are supplied. -/
def insertCoins (x : α) : List α → List Bool → List α × List Bool
  | [], cs => ([x], cs)
  | y :: ys, [] => (x :: y :: ys, [])
  | y :: ys, c :: cs =>
    if c then (x :: y :: ys, cs)
    else
      let r := insertCoins x ys cs
      (y :: r.1, r.2)

/-- Insertion sort consuming the coin list, returning the sorted list and the
unused coins. -/
def sortCoins : List α → List Bool → List α × List Bool
  | [], cs => ([], cs)
  | x :: xs, cs =>
    let r := sortCoins xs cs
    insertCoins x r.1 r.2

/-- The shuffle helper of `App.processQuestions`:
`const shuffle = (array) => array.sort(() => Math.random() - 0.5)`.
The engine sort driven by the inconsistent random comparator is modelled as
an insertion sort whose comparisons consume the successive outcomes of the
comparator, given by the coin list. -/
def shuffle (l : List α) (coins : List Bool) : List α :=
  (sortCoins l coins).1

/-- `allQuestions.filter(q => q.category === "Quant")`. -/
def quantOf (allQuestions : List Question) : List Question :=
  allQuestions.filter (fun q => q.category == Category.Quant)

/-- `allQuestions.filter(q => q.category === "VARC")`. -/
def varcOf (allQuestions : List Question) : List Question :=
  allQuestions.filter (fun q => q.category == Category.VARC)

/-- `allQuestions.filter(q => q.category === "DILR")`. -/
def dilrOf (allQuestions : List Question) : List Question :=
  allQuestions.filter (fun q => q.category == Category.DILR)

/-- `fullMockQuestions`: shuffled VARC capped at 24, then shuffled DILR
capped at 20, then shuffled Quant capped at 22. Each of the three `shuffle`
calls draws its own fresh randomness, given by the three coin lists. -/
def fullMockQuestionsOf (cv cd cq : List Bool) (allQuestions : List Question) :
    List Question :=
  (shuffle (varcOf allQuestions) cv).take 24
    ++ (shuffle (dilrOf allQuestions) cd).take 20
    ++ (shuffle (quantOf allQuestions) cq).take 22

/-- `finalQuestions = fullMockQuestions.length > 5 ? fullMockQuestions : allQuestions`. -/
def finalQuestionsOf (cv cd cq : List Bool) (allQuestions : List Question) :
    List Question :=
  if 5 < (fullMockQuestionsOf cv cd cq allQuestions).length then
    fullMockQuestionsOf cv cd cq allQuestions
  else allQuestions

/-- The `fullMock` test literal of `processQuestions`. -/
def fullMockOf (cv cd cq : List Bool) (allQuestions : List Question) : Test :=
  { id := "mock-full-1"
    title := "All India Open Mock (Full)"
    durationMinutes := 120
    questions := finalQuestionsOf cv cd cq allQuestions
    type := TestType.MOCK }

/-- The `quantMock` test literal of `processQuestions`. -/
def quantMockOf (allQuestions : List Question) : Test :=
  { id := "mock-quant-1"
    title := "Quant Sectional Test 01"
    durationMinutes := 40
    questions := quantOf allQuestions
    type := TestType.MOCK }

/-- The `varcMock` test literal of `processQuestions`. -/
def varcMockOf (allQuestions : List Question) : Test :=
  { id := "mock-varc-1"
    title := "VARC Sectional Test 01"
    durationMinutes := 40
    questions := varcOf allQuestions
    type := TestType.MOCK }

/-- The `dilrMock` test literal of `processQuestions`. -/
def dilrMockOf (allQuestions : List Question) : Test :=
  { id := "mock-dilr-1"
    title := "DILR Sectional Test 01"
    durationMinutes := 40
    questions := dilrOf allQuestions
    type := TestType.MOCK }

/-- `setMockTests([fullMock, quantMock, varcMock, dilrMock].filter(t => t.questions.length > 0))`. -/
def mockTestsOf (cv cd cq : List Bool) (allQuestions : List Question) : List Test :=
  ([fullMockOf cv cd cq allQuestions, quantMockOf allQuestions,
    varcMockOf allQuestions, dilrMockOf allQuestions]).filter
    (fun t => decide (0 < t.questions.length))

/-! ### The previous-year-paper list of `processQuestions` -/

/-- One entry of `pyqPapers`: the map key (`id`) together with the stored
year, slot and running count. -/
structure PaperRow where
  id : String
  year : String
  slot : String
  count : Nat
deriving DecidableEq

/-- The grouping key: `` `${q.year || "Unknown"}-${q.slot || "Slot 1"}` ``. -/
def keyOf (q : Question) : String :=
  q.year.getD "Unknown" ++ "-" ++ q.slot.getD "Slot 1"

/-- One loop iteration over `allQuestions`: if the key is absent, a row with
count 0 is inserted (keeping insertion order, as a JavaScript `Map` does),
then the count of the key is incremented. -/
def bumpKey : List PaperRow → Question → List PaperRow
  | [], q =>
    [{ id := keyOf q, year := q.year.getD "Unknown", slot := q.slot.getD "Slot 1", count := 1 }]
  | r :: rs, q =>
    if r.id = keyOf q then { r with count := r.count + 1 } :: rs
    else r :: bumpKey rs q

/-- The contents of `pyqMap` after the `forEach`, as an insertion-ordered
row list. -/
def pyqRows (qs : List Question) : List PaperRow :=
  qs.foldl bumpKey []

/-- The comparator `(a, b) => b.year.localeCompare(a.year) || a.slot.localeCompare(b.slot)`
as an order relation: `a` comes before (or ties with) `b` when `a.year` is
greater, or the years are equal and `a.slot ≤ b.slot`. String comparison is
the lexicographic order on the character lists (the spec: lexicographic
compare of 4-digit years). -/
def paperBefore (a b : PaperRow) : Prop :=
  b.year.data < a.year.data ∨ (a.year = b.year ∧ a.slot.data ≤ b.slot.data)

instance : DecidableRel paperBefore := fun a b =>
  decidable_of_iff (b.year.data < a.year.data ∨ (a.year = b.year ∧ a.slot.data ≤ b.slot.data))
    Iff.rfl

instance : IsTotal PaperRow paperBefore where
  total a b := by
    rcases lt_trichotomy a.year.data b.year.data with h | h | h
    · exact Or.inr (Or.inl h)
    · have hy : a.year = b.year := String.toList_inj.mp h
      rcases le_total a.slot.data b.slot.data with hs | hs
      · exact Or.inl (Or.inr ⟨hy, hs⟩)
      · exact Or.inr (Or.inr ⟨hy.symm, hs⟩)
    · exact Or.inl (Or.inl h)

instance : IsTrans PaperRow paperBefore where
  trans a b c hab hbc := by
    rcases hab with h1 | ⟨h1, hs1⟩
    · rcases hbc with h2 | ⟨h2, hs2⟩
      · exact Or.inl (h2.trans h1)
      · exact Or.inl (h2 ▸ h1)
    · rcases hbc with h2 | ⟨h2, hs2⟩
      · exact Or.inl (h1.symm ▸ h2)
      · exact Or.inr ⟨h1.trans h2, hs1.trans hs2⟩

/-- `pyqPapers`: the rows of `pyqMap`, sorted by the comparator. The engine
sort with this consistent comparator is modelled as a stable insertion sort. -/
def pyqPapersOf (qs : List Question) : List PaperRow :=
  List.insertionSort paperBefore (pyqRows qs)

/-- The count a row list assigns to a key: the count of its first row with
that id, or 0. -/
def rowCount : List PaperRow → String → Nat
  | [], _ => 0
  | r :: rs, k => if r.id = k then r.count else rowCount rs k

/-- The number of catalog questions carrying a given grouping key. -/
def countKey (k : String) (qs : List Question) : Nat :=
  (qs.filter (fun q => keyOf q == k)).length

/-! ### Concrete inputs used by witnesses and counterexamples -/

/-- A minimal question: two options, correct option 0. -/
def exQ (c : Category) (i : String) : Question :=
  { id := i, options := ["A", "B"], correctAnswer := 0, category := c }

/-- A one-question, one-minute mock test. -/
def exTest1 : Test :=
  { id := "t1", title := "T", durationMinutes := 1,
    questions := [exQ Category.Quant "q1"], type := TestType.MOCK }

/-- A catalog with 30 questions in each of the three categories. -/
def catalog90 : List Question :=
  List.replicate 30 (exQ Category.Quant "q") ++ List.replicate 30 (exQ Category.VARC "v")
    ++ List.replicate 30 (exQ Category.DILR "d")

/-- A catalog with only 3 questions, below the 5-question full-mock threshold. -/
def exCatalog3 : List Question :=
  [exQ Category.Quant "q", exQ Category.VARC "v", exQ Category.DILR "d"]

/-- All 2^3 outcomes of three fair coins, each outcome of probability 1/8. -/
def coinTriples : List (List Bool) :=
  [[true, true, true], [true, true, false], [true, false, true], [true, false, false],
   [false, true, true], [false, true, false], [false, false, true], [false, false, false]]

/-- A three-question subset fed to the shuffle. -/
def exShuffleInput : List Question :=
  [exQ Category.Quant "a", exQ Category.Quant "b", exQ Category.Quant "c"]

/-- Of the 8 equiprobable coin outcomes, how many put the given question in
the first position of the shuffled subset. -/
def firstCount (q : Question) : Nat :=
  (coinTriples.filter (fun cs => decide ((shuffle exShuffleInput cs).head? = some q))).length

/-- A previous-year question for a given year, slot "Slot 1". -/
def pyqExQ (y : String) : Question :=
  { id := y, category := Category.VARC, year := some y, slot := some "Slot 1" }

/-- Three previous-year questions with years out of order. -/
def exPyqList : List Question :=
  [pyqExQ "2021", pyqExQ "2023", pyqExQ "2022"]

/-- Two questions with distinct `(year, slot)` pairs whose concatenated keys
collide: `2021-Slot` + `-` + `1` and `2021` + `-` + `Slot-1`. -/
def collideQ1 : Question :=
  { id := "c1", category := Category.VARC, year := some "2021-Slot", slot := some "1" }

/-- Second question of the colliding pair. -/
def collideQ2 : Question :=
  { id := "c2", category := Category.VARC, year := some "2021", slot := some "Slot-1" }

/-- The descriptor row for year 2023 in `exPyqList`. -/
def exRow2023 : PaperRow :=
  { id := "2023-Slot 1", year := "2023", slot := "Slot 1", count := 1 }

/-- A running state with a two-slot answer buffer and cursor 0. -/
def exState2 : RunnerState :=
  { currentQ := 0
    answers := [-1, -1]
    timeLeft := 60
    isSubmitting := false
    showConfirmModal := false
    emissions := []
    errors := [] }

/-- A premium-flagged question. -/
def exPremiumQ : Question :=
  { id := "p", options := ["A", "B"], category := Category.Quant, isPremium := true }

/-! ## Theorems

Helper lemmas first, then one theorem per claim (with its witness or
counterexample where required). -/

theorem computeScore_le_length (qs : List Question) (as : List Int) :
    computeScore qs as ≤ qs.length := by
  induction qs generalizing as with
  | nil => simp [computeScore]
  | cons q qs ih =>
    cases as with
    | nil => simp [computeScore]
    | cons a as =>
      have h := ih as
      simp only [computeScore, List.length_cons]
      split <;> omega

theorem computeScore_filter_eq (qs : List Question) (as : List Int)
    (h : ∀ q ∈ qs, 0 ≤ q.correctAnswer) :
    computeScore qs as
      = ((qs.zip as).filter
          (fun p => decide (0 ≤ p.2) && decide (p.2 = p.1.correctAnswer))).length := by
  induction qs generalizing as with
  | nil => simp [computeScore]
  | cons q qs ih =>
    cases as with
    | nil => simp [computeScore]
    | cons a as =>
      have hq : 0 ≤ q.correctAnswer := h q (List.mem_cons_self q qs)
      have hrest : ∀ x ∈ qs, 0 ≤ x.correctAnswer := fun x hx => h x (List.mem_cons_of_mem q hx)
      by_cases hc : a = q.correctAnswer
      · subst hc
        simp [computeScore, hq, List.zip_cons_cons, List.filter_cons, ih as hrest,
          Nat.add_comm]
      · simp [computeScore, hc, List.zip_cons_cons, List.filter_cons, ih as hrest]

/-- Claim C10: a question flagged `isPremium` is never started as a practice
test: the Solve Now action creates no test for it. -/
theorem premium_not_practiced (q : Question) (h : q.isPremium = true) :
    solveNowAction q = none := by
  simp [solveNowAction, h]

/-- Witness for `premium_not_practiced` at the concrete premium question. -/
theorem premium_not_practiced_w :
    exPremiumQ.isPremium = true ∧ solveNowAction exPremiumQ = none :=
  ⟨rfl, premium_not_practiced exPremiumQ rfl⟩

/-- Claim C1, counterexample: with the `onFinish` callback absent, submitting
the one-question test from its initial state leaves the engine with
`isSubmitting = false` — the Attempt does not remain in the Submitting state
as the claim says (the failure is logged and nothing is emitted). -/
theorem missingHandler_cex :
    (handleSubmit exTest1 false (initState exTest1)).isSubmitting = false
    ∧ (handleSubmit exTest1 false (initState exTest1)).emissions = []
    ∧ (handleSubmit exTest1 false (initState exTest1)).errors = ["onFinish prop missing"] := by
  decide

/-- Claim C1, amended: if the completion callback is absent when `submit()`
reaches the point of emitting the result, the engine logs the
`onFinish prop missing` failure, emits no score (the Attempt is never marked
Finished), and resets `isSubmitting` to `false`, returning the Attempt to the
Running state (so submission can be retried) instead of remaining in
Submitting. -/
theorem missingHandler_keeps_running (test : Test) (st : RunnerState)
    (h : st.isSubmitting = false) :
    (handleSubmit test false st).isSubmitting = false
    ∧ (handleSubmit test false st).emissions = st.emissions
    ∧ (handleSubmit test false st).errors = st.errors ++ ["onFinish prop missing"]
    ∧ (handleSubmit test false st).timeLeft = st.timeLeft
    ∧ (handleSubmit test false st).answers = st.answers := by
  simp [handleSubmit, h]

/-- Witness for `missingHandler_keeps_running` at the concrete test. -/
theorem missingHandler_w :
    (initState exTest1).isSubmitting = false
    ∧ (handleSubmit exTest1 false (initState exTest1)).emissions = (initState exTest1).emissions :=
  ⟨rfl, (missingHandler_keeps_running exTest1 (initState exTest1) rfl).2.1⟩

/-- Claim C2, counterexample: the one question of `exTest1` has 2 options,
so index 5 is out of range, yet `handleSelect` writes it into the answer
buffer (the prior state had slot `-1`) and records no failure — the claimed
`InvalidArgument` rejection leaving the state unchanged does not exist. -/
theorem select_no_reject_cex :
    (exQ Category.Quant "q1").options.length = 2
    ∧ (handleSelect (initState exTest1) 5).answers = [5]
    ∧ (initState exTest1).answers = [-1]
    ∧ (handleSelect (initState exTest1) 5).errors = [] := by
  decide

/-- Claim C2, amended: `handleSelect` performs no bounds check: it writes any
passed index — in range or not — into the answer slot at the current cursor,
overwriting any prior choice for that question, and leaves every other slot
and the rest of the Attempt state (cursor, timer, submission status,
emissions, error log) unchanged. -/
theorem select_writes_any (st : RunnerState) (idx : Int) :
    ((handleSelect st idx).answers)[st.currentQ]?
        = (if st.currentQ < st.answers.length then some idx else none)
    ∧ (∀ j : Nat, j ≠ st.currentQ → ((handleSelect st idx).answers)[j]? = st.answers[j]?)
    ∧ (handleSelect st idx).currentQ = st.currentQ
    ∧ (handleSelect st idx).timeLeft = st.timeLeft
    ∧ (handleSelect st idx).isSubmitting = st.isSubmitting
    ∧ (handleSelect st idx).emissions = st.emissions
    ∧ (handleSelect st idx).errors = st.errors := by
  refine ⟨?_, ?_, rfl, rfl, rfl, rfl, rfl⟩
  · simp [handleSelect, List.getElem?_set]
  · intro j hj
    simp [handleSelect, List.getElem?_set_ne (Ne.symm hj)]

/-- Witness for `select_writes_any`: slot 1 of a two-slot buffer is untouched
by a write at cursor 0. -/
theorem select_writes_any_w :
    ((handleSelect exState2 5).answers)[1]? = exState2.answers[1]? :=
  (select_writes_any exState2 5).2.1 1 (by decide)

/-- Claim C3: `submit()` emits `(score, total)` with
`total = test.questions.length`, where the score compares each answer slot
positionally against that question's `correctAnswer`; `score ≤ total`, and —
whenever every `correctAnswer` is a valid (non-negative) index — an
unanswered slot (sentinel `-1`) is never counted: the score equals the count
of positions that are both answered and correct, while the denominator stays
the full question count. -/
theorem submit_scoring (test : Test) (st : RunnerState)
    (hs : st.isSubmitting = false)
    (hvalid : ∀ q ∈ test.questions, 0 ≤ q.correctAnswer) :
    (handleSubmit test true st).emissions
        = st.emissions ++ [(computeScore test.questions st.answers, test.questions.length)]
    ∧ computeScore test.questions st.answers ≤ test.questions.length
    ∧ computeScore test.questions st.answers
        = ((test.questions.zip st.answers).filter
            (fun p => decide (0 ≤ p.2) && decide (p.2 = p.1.correctAnswer))).length := by
  refine ⟨?_, computeScore_le_length _ _, computeScore_filter_eq _ _ hvalid⟩
  simp [handleSubmit, hs]

/-- Witness for `submit_scoring` at the concrete one-question test: the one
slot is unanswered, so the emitted pair is `(0, 1)`. -/
theorem submit_scoring_w :
    (initState exTest1).isSubmitting = false
    ∧ (∀ q ∈ exTest1.questions, 0 ≤ q.correctAnswer)
    ∧ (handleSubmit exTest1 true (initState exTest1)).emissions
        = [(computeScore exTest1.questions (initState exTest1).answers, 1)] :=
  ⟨rfl, by decide, by
    have h := (submit_scoring exTest1 (initState exTest1) rfl (by decide)).1
    simpa using h⟩

/-- Claim C4: `submit()` is idempotent per Attempt: from a running state a
submit emits exactly one `(score, total)` pair, a second submit on the
resulting state is a no-op (the state is unchanged, so no further emission),
and a subsequent tick running the timer down to zero also adds no emission —
the timeout and a manual submit are mutually exclusive entries into the
submit path. -/
theorem submit_idempotent (test : Test) (st : RunnerState)
    (hs : st.isSubmitting = false) :
    (handleSubmit test true st).emissions
        = st.emissions ++ [(computeScore test.questions st.answers, test.questions.length)]
    ∧ handleSubmit test true (handleSubmit test true st) = handleSubmit test true st
    ∧ (tick test true { handleSubmit test true st with timeLeft := 1 }).emissions
        = (handleSubmit test true st).emissions := by
  have h1 : (handleSubmit test true st).isSubmitting = true := by
    simp [handleSubmit, hs]
  refine ⟨by simp [handleSubmit, hs], ?_, ?_⟩
  · conv_lhs => rw [handleSubmit]
    simp [h1]
  · rw [tick]
    simp only [RunnerState.mk.injEq]
    norm_num
    rw [handleSubmit]
    simp [h1]

/-- Witness for `submit_idempotent` at the concrete one-question test. -/
theorem submit_idempotent_w :
    (initState exTest1).isSubmitting = false
    ∧ handleSubmit exTest1 true (handleSubmit exTest1 true (initState exTest1))
        = handleSubmit exTest1 true (initState exTest1) :=
  ⟨rfl, (submit_idempotent exTest1 (initState exTest1) rfl).2.1⟩

theorem handleSubmit_timeLeft (test : Test) (hf : Bool) (st : RunnerState) :
    (handleSubmit test hf st).timeLeft = st.timeLeft := by
  rw [handleSubmit]
  split
  · rfl
  · split <;> rfl

theorem handleSubmit_true_isSubmitting (test : Test) (st : RunnerState) :
    (handleSubmit test true st).isSubmitting = true := by
  rw [handleSubmit]
  split
  · assumption
  · rfl

theorem tick_at_zero (test : Test) (hf : Bool) (st : RunnerState)
    (h : st.timeLeft = 0) : tick test hf st = st := by
  simp [tick, h]

theorem tick_decrements (test : Test) (hf : Bool) (st : RunnerState)
    (h : st.timeLeft ≠ 0) : (tick test hf st).timeLeft = st.timeLeft - 1 := by
  rw [tick, if_neg h]
  show (if st.timeLeft - 1 = 0 then handleSubmit test hf { st with timeLeft := st.timeLeft - 1 }
      else { st with timeLeft := st.timeLeft - 1 }).timeLeft = st.timeLeft - 1
  split
  · rw [handleSubmit_timeLeft]
  · rfl

theorem tick_nonneg (test : Test) (hf : Bool) (st : RunnerState)
    (h : 0 ≤ st.timeLeft) : 0 ≤ (tick test hf st).timeLeft := by
  by_cases h0 : st.timeLeft = 0
  · rw [tick_at_zero test hf st h0, h0]
  · rw [tick_decrements test hf st h0]
    omega

theorem tick_run (test : Test) (hf : Bool) :
    ∀ (n : Nat) (st : RunnerState), st.timeLeft = (n : Int) + 1 →
      (tick test hf)^[n + 1] st = handleSubmit test hf { st with timeLeft := 0 } := by
  intro n
  induction n with
  | zero =>
    intro st h
    rw [Function.iterate_one, tick, if_neg (by rw [h]; norm_num), h]
    norm_num
  | succ n ih =>
    intro st h
    rw [Function.iterate_succ_apply]
    have hne : st.timeLeft ≠ 0 := by rw [h]; push_cast; omega
    have hone : st.timeLeft - 1 ≠ 0 := by rw [h]; push_cast; omega
    have hstep : tick test hf st = { st with timeLeft := st.timeLeft - 1 } := by
      rw [tick, if_neg hne, if_neg hone]
    rw [hstep]
    have harg : ({ st with timeLeft := st.timeLeft - 1 } : RunnerState).timeLeft
        = (n : Int) + 1 := by
      show st.timeLeft - 1 = (n : Int) + 1
      rw [h]; push_cast; ring
    exact ih _ harg

/-- Claim C5: the remaining-seconds counter starts at
`test.durationMinutes * 60`; a tick at zero is a no-op (the effect installs
no interval, so the counter never becomes negative), every other tick
decrements the counter by exactly one, the counter stays non-negative along
the whole run, and with `durationMinutes = 1` the 60th tick drives the
counter to zero and triggers the submit path automatically exactly once —
emitting the same `(score, total)` pair a manual submit would — with every
further tick adding nothing. -/
theorem timer_spec (test : Test) (h : test.durationMinutes = 1) :
    (initState test).timeLeft = (test.durationMinutes : Int) * 60
    ∧ (∀ st : RunnerState, st.timeLeft = 0 → tick test true st = st)
    ∧ (∀ st : RunnerState, st.timeLeft ≠ 0 → (tick test true st).timeLeft = st.timeLeft - 1)
    ∧ (∀ k : Nat, 0 ≤ ((tick test true)^[k] (initState test)).timeLeft)
    ∧ ((tick test true)^[60] (initState test)).emissions
        = [(computeScore test.questions (initState test).answers, test.questions.length)]
    ∧ (∀ m : Nat, ((tick test true)^[60 + m] (initState test)).emissions
        = [(computeScore test.questions (initState test).answers, test.questions.length)]) := by
  have hinit : (initState test).timeLeft = (59 : Int) + 1 := by
    simp [initState, h]
  have hrun : (tick test true)^[60] (initState test)
      = handleSubmit test true { initState test with timeLeft := 0 } :=
    tick_run test true 59 (initState test) hinit
  have hem : (handleSubmit test true { initState test with timeLeft := 0 }).emissions
      = [(computeScore test.questions (initState test).answers, test.questions.length)] := by
    simp [handleSubmit, initState]
  refine ⟨by simp [initState], fun st hst => tick_at_zero test true st hst,
    fun st hst => tick_decrements test true st hst, ?_, ?_, ?_⟩
  · intro k
    induction k with
    | zero =>
      simp only [Function.iterate_zero, id_eq, initState]
      positivity
    | succ k ih =>
      rw [Function.iterate_succ_apply']
      exact tick_nonneg test true _ ih
  · rw [hrun, hem]
  · intro m
    have hfix : tick test true ((tick test true)^[60] (initState test))
        = (tick test true)^[60] (initState test) := by
      apply tick_at_zero
      rw [hrun, handleSubmit_timeLeft]
    rw [Nat.add_comm, Function.iterate_add_apply, Function.iterate_fixed hfix, hrun, hem]

/-- Witness for `timer_spec` at the concrete one-minute, one-question test:
60 ticks from the start emit exactly the pair `(0, 1)`. -/
theorem timer_spec_w :
    exTest1.durationMinutes = 1
    ∧ ((tick exTest1 true)^[60] (initState exTest1)).emissions = [(0, 1)] :=
  ⟨rfl, by
    have h := (timer_spec exTest1 rfl).2.2.2.2.1
    rw [h]
    decide⟩

theorem insertCoins_fst_perm (x : α) :
    ∀ (l : List α) (cs : List Bool), (insertCoins x l cs).1.Perm (x :: l) := by
  intro l
  induction l with
  | nil => intro cs; simp [insertCoins]
  | cons y ys ih =>
    intro cs
    cases cs with
    | nil => simp [insertCoins]
    | cons c cs =>
      by_cases hc : c = true
      · simp [insertCoins, hc]
      · rw [Bool.not_eq_true] at hc
        subst hc
        show (y :: (insertCoins x ys cs).1).Perm (x :: y :: ys)
        exact ((ih cs).cons y).trans (List.Perm.swap x y ys)

theorem sortCoins_fst_perm : ∀ (l : List α) (cs : List Bool), (sortCoins l cs).1.Perm l := by
  intro l
  induction l with
  | nil => intro cs; simp [sortCoins]
  | cons x xs ih =>
    intro cs
    show (insertCoins x (sortCoins xs cs).1 (sortCoins xs cs).2).1.Perm (x :: xs)
    exact (insertCoins_fst_perm x (sortCoins xs cs).1 (sortCoins xs cs).2).trans
      ((ih cs).cons x)

theorem shuffle_length (l : List α) (cs : List Bool) : (shuffle l cs).length = l.length :=
  (sortCoins_fst_perm l cs).length_eq

/-- Claim C9, counterexample: the shuffle is not a uniform random
permutation. Over the 8 equiprobable outcomes of the three comparator coins,
the first element of the 3-question subset ends up in the first position of
the output in 4 outcomes (probability 1/2) while the second and third end up
there in 2 outcomes each (probability 1/4) — the elements are not equally
likely to land in a given position (uniformity would need the impossible
count 8/3 for each). -/
theorem shuffle_not_uniform_cex :
    coinTriples.length = 8
    ∧ firstCount (exQ Category.Quant "a") = 4
    ∧ firstCount (exQ Category.Quant "b") = 2
    ∧ firstCount (exQ Category.Quant "c") = 2 := by
  decide

/-- Claim C9, amended: the shuffle (the engine sort driven by the random
comparator) always yields some permutation of its input subset — for every
outcome of the comparator coins — but not a uniform one; and within one run
each category subset is shuffled exactly once (each `shuffle` call in
`fullMockQuestionsOf` is applied once to a fresh copy). -/
theorem shuffle_is_perm (l : List Question) (cs : List Bool) : (shuffle l cs).Perm l :=
  sortCoins_fst_perm l cs

theorem category_partition (l : List Question) :
    (quantOf l).length + (varcOf l).length + (dilrOf l).length = l.length := by
  induction l with
  | nil => simp [quantOf, varcOf, dilrOf]
  | cons q l ih =>
    simp only [quantOf, varcOf, dilrOf, List.filter_cons] at ih ⊢
    cases hc : q.category <;> simp [hc, beq_iff_eq] <;> omega

/-- Claim C6: on a catalog with 30 questions per category, the mock list is
the full mock followed by the Quant, VARC and DILR sectionals; the full mock
is exactly the independently shuffled VARC subset capped at 24, then the
shuffled DILR subset capped at 20, then the shuffled Quant subset capped at
22 — 66 questions in all — and each sectional carries its unshuffled,
untruncated category subset of 30 questions. -/
theorem mocks_assembly (cv cd cq : List Bool) (allQuestions : List Question)
    (hq : (quantOf allQuestions).length = 30)
    (hv : (varcOf allQuestions).length = 30)
    (hd : (dilrOf allQuestions).length = 30) :
    mockTestsOf cv cd cq allQuestions
        = [fullMockOf cv cd cq allQuestions, quantMockOf allQuestions,
           varcMockOf allQuestions, dilrMockOf allQuestions]
    ∧ (fullMockOf cv cd cq allQuestions).questions
        = (shuffle (varcOf allQuestions) cv).take 24
            ++ (shuffle (dilrOf allQuestions) cd).take 20
            ++ (shuffle (quantOf allQuestions) cq).take 22
    ∧ (fullMockOf cv cd cq allQuestions).questions.length = 66
    ∧ (quantMockOf allQuestions).questions = quantOf allQuestions
        ∧ (quantOf allQuestions).length = 30
    ∧ (varcMockOf allQuestions).questions = varcOf allQuestions
        ∧ (varcOf allQuestions).length = 30
    ∧ (dilrMockOf allQuestions).questions = dilrOf allQuestions
        ∧ (dilrOf allQuestions).length = 30 := by
  have hcap : (fullMockQuestionsOf cv cd cq allQuestions).length = 66 := by
    simp [fullMockQuestionsOf, List.length_take, shuffle_length, hq, hv, hd]
  have hfinal : finalQuestionsOf cv cd cq allQuestions
      = fullMockQuestionsOf cv cd cq allQuestions := by
    rw [finalQuestionsOf, if_pos]
    rw [hcap]
    norm_num
  have hfull : (fullMockOf cv cd cq allQuestions).questions
      = fullMockQuestionsOf cv cd cq allQuestions := hfinal
  have hlen : (fullMockOf cv cd cq allQuestions).questions.length = 66 := by
    rw [hfull, hcap]
  refine ⟨?_, hfull, hlen, rfl, hq, rfl, hv, rfl, hd⟩
  have d1 : 0 < (fullMockOf cv cd cq allQuestions).questions.length := by
    rw [hlen]; norm_num
  have d2 : 0 < (quantMockOf allQuestions).questions.length := by
    show 0 < (quantOf allQuestions).length
    rw [hq]; norm_num
  have d3 : 0 < (varcMockOf allQuestions).questions.length := by
    show 0 < (varcOf allQuestions).length
    rw [hv]; norm_num
  have d4 : 0 < (dilrMockOf allQuestions).questions.length := by
    show 0 < (dilrOf allQuestions).length
    rw [hd]; norm_num
  simp [mockTestsOf, List.filter_cons, d1, d2, d3, d4]

/-- Witness for `mocks_assembly` at a concrete 90-question catalog with
identity coin outcomes. -/
theorem mocks_assembly_w :
    (quantOf catalog90).length = 30 ∧ (varcOf catalog90).length = 30
    ∧ (dilrOf catalog90).length = 30
    ∧ (fullMockOf [] [] [] catalog90).questions.length = 66 :=
  ⟨rfl, rfl, rfl, (mocks_assembly [] [] [] catalog90 rfl rfl rfl).2.2.1⟩

/-- Claim C7: when the capped, concatenated full-mock list has 5 or fewer
questions, the full mock falls back to the entire unfiltered catalog; when it
has more than 5 it is used as-is; in particular a 3-question catalog yields a
full mock equal to the whole catalog, with 3 questions. -/
theorem fullMock_fallback (cv cd cq : List Bool) (allQuestions : List Question) :
    ((fullMockQuestionsOf cv cd cq allQuestions).length ≤ 5 →
        (fullMockOf cv cd cq allQuestions).questions = allQuestions)
    ∧ (5 < (fullMockQuestionsOf cv cd cq allQuestions).length →
        (fullMockOf cv cd cq allQuestions).questions
          = fullMockQuestionsOf cv cd cq allQuestions)
    ∧ (allQuestions.length = 3 →
        (fullMockOf cv cd cq allQuestions).questions = allQuestions
        ∧ (fullMockOf cv cd cq allQuestions).questions.length = 3) := by
  have hsmall : (fullMockQuestionsOf cv cd cq allQuestions).length ≤ 5 →
      (fullMockOf cv cd cq allQuestions).questions = allQuestions := by
    intro h5
    show finalQuestionsOf cv cd cq allQuestions = allQuestions
    rw [finalQuestionsOf, if_neg]
    omega
  refine ⟨hsmall, ?_, ?_⟩
  · intro h5
    show finalQuestionsOf cv cd cq allQuestions = fullMockQuestionsOf cv cd cq allQuestions
    rw [finalQuestionsOf, if_pos h5]
  · intro h3
    have hpart := category_partition allQuestions
    have h1 : ((shuffle (varcOf allQuestions) cv).take 24).length
        ≤ (varcOf allQuestions).length := by
      rw [List.length_take, shuffle_length]
      exact Nat.min_le_right _ _
    have h2 : ((shuffle (dilrOf allQuestions) cd).take 20).length
        ≤ (dilrOf allQuestions).length := by
      rw [List.length_take, shuffle_length]
      exact Nat.min_le_right _ _
    have h3q : ((shuffle (quantOf allQuestions) cq).take 22).length
        ≤ (quantOf allQuestions).length := by
      rw [List.length_take, shuffle_length]
      exact Nat.min_le_right _ _
    have hcap : (fullMockQuestionsOf cv cd cq allQuestions).length ≤ 5 := by
      simp only [fullMockQuestionsOf, List.length_append]
      omega
    have hq := hsmall hcap
    exact ⟨hq, by rw [hq, h3]⟩

/-- Witness for `fullMock_fallback` at the concrete 3-question catalog. -/
theorem fullMock_fallback_w :
    exCatalog3.length = 3 ∧ (fullMockOf [] [] [] exCatalog3).questions = exCatalog3 :=
  ⟨rfl, ((fullMock_fallback [] [] [] exCatalog3).2.2 rfl).1⟩

theorem rowCount_bumpKey (q : Question) (k : String) :
    ∀ m : List PaperRow,
      rowCount (bumpKey m q) k = rowCount m k + (if keyOf q = k then 1 else 0) := by
  intro m
  induction m with
  | nil =>
    by_cases hk : keyOf q = k
    · simp [bumpKey, rowCount, hk]
    · simp [bumpKey, rowCount, hk]
  | cons r rs ih =>
    simp only [bumpKey]
    by_cases hr : r.id = keyOf q
    · rw [if_pos hr]
      show (if r.id = k then r.count + 1 else rowCount rs k)
          = (if r.id = k then r.count else rowCount rs k) + (if keyOf q = k then 1 else 0)
      by_cases hk : r.id = k
      · rw [if_pos hk, if_pos hk, if_pos (hr.symm.trans hk)]
      · rw [if_neg hk, if_neg hk, if_neg (fun h => hk (hr.trans h))]
        omega
    · rw [if_neg hr]
      show (if r.id = k then r.count else rowCount (bumpKey rs q) k)
          = (if r.id = k then r.count else rowCount rs k) + (if keyOf q = k then 1 else 0)
      by_cases hk : r.id = k
      · rw [if_pos hk, if_pos hk, if_neg (fun h => hr (hk.trans h.symm))]
        omega
      · rw [if_neg hk, if_neg hk, ih]

theorem rowCount_foldl :
    ∀ (qs : List Question) (m : List PaperRow) (k : String),
      rowCount (qs.foldl bumpKey m) k = rowCount m k + countKey k qs := by
  intro qs
  induction qs with
  | nil => intro m k; simp [countKey]
  | cons q qs ih =>
    intro m k
    rw [List.foldl_cons, ih, rowCount_bumpKey]
    simp only [countKey, List.filter_cons]
    by_cases hk : keyOf q = k
    · simp only [hk, beq_self_eq_true, if_pos, List.length_cons]
      omega
    · have hb : (keyOf q == k) = false := beq_eq_false_iff_ne.mpr hk
      simp only [hb, Bool.false_eq_true, if_false, if_neg hk]
      omega

theorem ids_bumpKey (q : Question) :
    ∀ m : List PaperRow,
      (bumpKey m q).map PaperRow.id = m.map PaperRow.id
      ∨ ((bumpKey m q).map PaperRow.id = m.map PaperRow.id ++ [keyOf q]
          ∧ keyOf q ∉ m.map PaperRow.id) := by
  intro m
  induction m with
  | nil =>
    right
    simp [bumpKey]
  | cons r rs ih =>
    simp only [bumpKey]
    by_cases hr : r.id = keyOf q
    · left
      rw [if_pos hr]
      simp
    · rw [if_neg hr]
      rcases ih with h | ⟨h, hmem⟩
      · left
        simp [h]
      · right
        refine ⟨by simp [h], ?_⟩
        simp only [List.map_cons, List.mem_cons, not_or]
        exact ⟨fun hh => hr hh.symm, hmem⟩

theorem nodup_ids_bumpKey (q : Question) (m : List PaperRow)
    (h : (m.map PaperRow.id).Nodup) : ((bumpKey m q).map PaperRow.id).Nodup := by
  rcases ids_bumpKey q m with he | ⟨he, hmem⟩
  · rw [he]
    exact h
  · rw [he, List.nodup_append]
    refine ⟨h, List.nodup_singleton _, ?_⟩
    intro x hx hx1
    rw [List.mem_singleton] at hx1
    exact hmem (hx1 ▸ hx)

theorem pyqRows_ids_nodup (qs : List Question) : ((pyqRows qs).map PaperRow.id).Nodup := by
  suffices h : ∀ m : List PaperRow, (m.map PaperRow.id).Nodup →
      ((qs.foldl bumpKey m).map PaperRow.id).Nodup from h [] (by simp)
  induction qs with
  | nil => intro m hm; simpa using hm
  | cons q qs ih =>
    intro m hm
    rw [List.foldl_cons]
    exact ih _ (nodup_ids_bumpKey q m hm)

theorem rowCount_of_mem (r : PaperRow) :
    ∀ m : List PaperRow, (m.map PaperRow.id).Nodup → r ∈ m → rowCount m r.id = r.count := by
  intro m
  induction m with
  | nil => intro _ hr; cases hr
  | cons a as ih =>
    intro hnd hr
    rw [List.map_cons, List.nodup_cons] at hnd
    rcases List.mem_cons.mp hr with he | hmem
    · subst he
      simp [rowCount]
    · have hane : a.id ≠ r.id := by
        intro hh
        exact hnd.1 (hh ▸ List.mem_map_of_mem PaperRow.id hmem)
      show (if a.id = r.id then a.count else rowCount as r.id) = r.count
      rw [if_neg hane]
      exact ih hnd.2 hmem

theorem pyqRows_count (qs : List Question) (r : PaperRow) (hr : r ∈ pyqRows qs) :
    r.count = countKey r.id qs := by
  have h1 := rowCount_foldl qs [] r.id
  have h3 : rowCount (pyqRows qs) r.id = r.count :=
    rowCount_of_mem r (pyqRows qs) (pyqRows_ids_nodup qs) hr
  rw [pyqRows] at h3
  rw [h1] at h3
  simpa [rowCount] using h3.symm

/-- Claim C8, counterexample: the code groups by the concatenated string
`year + "-" + slot`, not by the pair `(year, slot)`. The two questions
`(year "2021-Slot", slot "1")` and `(year "2021", slot "Slot-1")` have
distinct pairs but the same key string, so the output is a single descriptor
whose count is 2, although only one catalog question carries its
`(year, slot)` pair — the claimed count-per-(year, slot)-group is violated. -/
theorem pyq_key_collision_cex :
    pyqPapersOf [collideQ1, collideQ2]
        = [{ id := "2021-Slot-1", year := "2021-Slot", slot := "1", count := 2 }]
    ∧ ([collideQ1, collideQ2].filter
        (fun q => q.year == some "2021-Slot" && q.slot == some "1")).length = 1 :=
  ⟨rfl, rfl⟩

/-- Claim C8, amended: the PYQ list groups questions by the concatenated
string key `(year or "Unknown") ++ "-" ++ (slot or "Slot 1")` — which agrees
with grouping by the pair `(year, slot)` whenever distinct pairs give
distinct concatenations, as with 4-digit years — sets each descriptor count
to the number of questions carrying its key string, and sorts the output by
year descending (lexicographic) with slot ascending as tie-break; the output
is a deterministic function of the input, and years 2021, 2023, 2022 with
one slot come out in the order 2023, 2022, 2021. -/
theorem pyq_descriptors (qs : List Question) :
    List.Sorted paperBefore (pyqPapersOf qs)
    ∧ (∀ r ∈ pyqPapersOf qs, r.count = countKey r.id qs)
    ∧ (pyqPapersOf exPyqList).map PaperRow.year = ["2023", "2022", "2021"] := by
  refine ⟨List.sorted_insertionSort paperBefore (pyqRows qs), ?_, rfl⟩
  intro r hr
  exact pyqRows_count qs r ((List.mem_insertionSort paperBefore).mp hr)

/-- Witness for `pyq_descriptors`: the 2023 descriptor is in the output for
the concrete three-year catalog and its count matches its key's question
count. -/
theorem pyq_descriptors_w :
    exRow2023 ∈ pyqPapersOf exPyqList
    ∧ exRow2023.count = countKey exRow2023.id exPyqList := by
  have he : pyqPapersOf exPyqList
      = [exRow2023, { id := "2022-Slot 1", year := "2022", slot := "Slot 1", count := 1 },
         { id := "2021-Slot 1", year := "2021", slot := "Slot 1", count := 1 }] := rfl
  have hm : exRow2023 ∈ pyqPapersOf exPyqList := by
    rw [he]
    exact List.mem_cons_self _ _
  exact ⟨hm, (pyq_descriptors exPyqList).2.1 exRow2023 hm⟩

end Catrix
